import Mathlib

/-!
Verification of the FLOOSE dashboard core (client-side widget layout engine).

The definitions below are a shallow embedding of the JavaScript sources:
`WidgetRegistry` (static/js/dashboard/core/WidgetRegistry.js),
`StateManager` (static/js/dashboard/core/StateManager.js),
`DragDropManager` (static/js/dashboard/core/DragDropManager.js) and
`LayoutManager` (static/js/dashboard/core/LayoutManager.js).

JavaScript `Map` objects are embedded as association lists with unique keys
(`mlookup` / `mset` / `merase` mirror `Map.get` / `Map.set` / `Map.delete`),
JavaScript objects used as partial state records become records of `Option`
fields (a missing field is `none`), and the asynchronous parts (promise
deduplication in the registry, the animation-frame callback of the drag
manager, the idle-callback persistence schedule) are embedded as explicit
state: a pending promise is an identifier, a scheduled frame callback is the
captured pointer coordinates, and a scheduled save is a boolean flag.
-/

namespace Floose

/-- `Map.get`: first binding of the key in the association list. -/
def mlookup {α : Type _} (m : List (String × α)) (k : String) : Option α :=
  (m.find? (fun e => e.1 == k)).map (fun e => e.2)

/-- `Map.set`: replace the binding in place if the key is present, else append
(keys are unique in every list built through this interface, as in `Map`). -/
def mset {α : Type _} : List (String × α) → String → α → List (String × α)
  | [], k, v => [(k, v)]
  | e :: t, k, v => if e.1 == k then (k, v) :: t else e :: mset t k v

/-- `Map.delete`: remove every binding of the key. -/
def merase {α : Type _} (m : List (String × α)) (k : String) :
    List (String × α) :=
  m.filter (fun e => e.1 != k)

/-- `Set.add` on a set of ids embedded as a duplicate-free list. -/
def saddElem (l : List String) (k : String) : List String :=
  if l.contains k then l else l ++ [k]

/-! ## WidgetRegistry

Widget implementation classes and pending promises are embedded as numeric
references: two callers hold the identical implementation (resp. pending
result) exactly when they hold the same reference. -/

/-- A `RegistryEntry` as created by `WidgetRegistry.register`. -/
structure RegEntry where
  type : String
  loader : Nat
  name : String
  category : String
  defaultWidth : Int
  defaultHeight : Int
  priority : Int
  loaded : Bool
deriving DecidableEq

/-- The registry's module-level state: `registry`, `loadedModules`,
`loadingPromises` and `usageStats` maps, plus a fresh-promise counter and a
count of underlying loader invocations (each entry into the "start loading"
branch of `get` invokes the loader once). -/
structure RegState where
  registry : List (String × RegEntry)
  loadedModules : List (String × Nat)
  loadingPromises : List (String × Nat)
  usageStats : List (String × Nat)
  nextPromise : Nat
  loaderCalls : Nat
deriving DecidableEq

/-- Observable outcome of one `WidgetRegistry.get(type)` call: the thrown
not-registered error, the cached implementation, or the promise the caller
will await (both the caller that started the load and every caller that
arrives while it is pending receive the value of this same promise). -/
inductive GetResult where
  | notRegistered
  | cached (w : Nat)
  | loading (p : Nat)
deriving DecidableEq

/-- `WidgetRegistry.get`: lines 49-80 of WidgetRegistry.js. Returns the call's
outcome together with the updated registry state. -/
def RegState.get (s : RegState) (t : String) : GetResult × RegState :=
  match mlookup s.registry t with
  | none => (.notRegistered, s)
  | some _ =>
    let s1 : RegState :=
      { s with usageStats := mset s.usageStats t ((mlookup s.usageStats t).getD 0 + 1) }
    match mlookup s1.loadedModules t with
    | some w => (.cached w, s1)
    | none =>
      match mlookup s1.loadingPromises t with
      | some p => (.loading p, s1)
      | none =>
        (.loading s1.nextPromise,
          { s1 with
              loadingPromises := mset s1.loadingPromises t s1.nextPromise
              nextPromise := s1.nextPromise + 1
              loaderCalls := s1.loaderCalls + 1 })

/-- `get` called `n` times in sequence, collecting each call's outcome. -/
def RegState.getN (s : RegState) (t : String) : Nat → List GetResult × RegState
  | 0 => ([], s)
  | n + 1 =>
    let r := s.get t
    let rs := r.2.getN t n
    (r.1 :: rs.1, rs.2)

/-- The exports of a loaded module, in namespace-object order; a default
export appears under the name "default".  Export values are implementation
references (always truthy in the source). -/
structure ModuleExports where
  exports : List (String × Nat)
deriving DecidableEq

/-- Outcome of `WidgetRegistry._loadWidget` once the loader's promise settles:
the loader rejected (error rethrown), the module yielded no usable export
(`No widget class exported` error), or an implementation was extracted. -/
inductive LoadOutcome where
  | loaderRejected
  | noUsableExport
  | ok (w : Nat)
deriving DecidableEq

/-- `WidgetRegistry._loadWidget` (lines 182-203): extract
`module.default || module[type] || Object.values(module)[0]` from the loader's
result, failing when the loader rejected (`none`) or nothing was extracted. -/
def loadWidget (t : String) (loaderResult : Option ModuleExports) : LoadOutcome :=
  match loaderResult with
  | none => .loaderRejected
  | some m =>
    match (mlookup m.exports "default").orElse
        (fun _ => (mlookup m.exports t).orElse
          (fun _ => m.exports.head?.map (fun e => e.2))) with
    | some w => .ok w
    | none => .noUsableExport

/-- The continuation of `get` after the load promise settles: on success the
implementation is cached and the entry marked loaded; in both cases the
pending promise is dropped (the `finally` clause). -/
def RegState.resolveLoad (s : RegState) (t : String)
    (loaderResult : Option ModuleExports) : LoadOutcome × RegState :=
  match loadWidget t loaderResult with
  | .ok w =>
    (.ok w,
      { s with
          loadedModules := mset s.loadedModules t w
          registry :=
            match mlookup s.registry t with
            | some entry => mset s.registry t { entry with loaded := true }
            | none => s.registry
          loadingPromises := merase s.loadingPromises t })
  | outcome => (outcome, { s with loadingPromises := merase s.loadingPromises t })

/-! ## StateManager

Widget state objects are JavaScript property bags; spread-merging
`{ ...current, ...partial }` is embedded by records whose fields are
`Option`-valued (a field absent from the object is `none`).  The opaque
`data` payload is embedded as a numeric reference (`0` is the empty object
default `{}`). -/

/-- A (possibly partial) widget state object, as stored in `_layoutState` or
`_ephemeralState` and as passed to `setWidgetState`. -/
structure WPartial where
  type : Option String := none
  x : Option Int := none
  y : Option Int := none
  width : Option Int := none
  height : Option Int := none
  data : Option Nat := none
  visible : Option Bool := none
deriving DecidableEq

/-- Spread merge `{ ...cur, ...new }`: every field present in the update wins. -/
def pmerge (cur upd : WPartial) : WPartial where
  type := upd.type.orElse (fun _ => cur.type)
  x := upd.x.orElse (fun _ => cur.x)
  y := upd.y.orElse (fun _ => cur.y)
  width := upd.width.orElse (fun _ => cur.width)
  height := upd.height.orElse (fun _ => cur.height)
  data := upd.data.orElse (fun _ => cur.data)
  visible := upd.visible.orElse (fun _ => cur.visible)

/-- The merge performed by `setWidgetState` and `batchUpdate`: merge into the
current entry when one exists, else store the update object itself. -/
def pmergeOpt (cur : Option WPartial) (upd : WPartial) : WPartial :=
  match cur with
  | some c => pmerge c upd
  | none => upd

/-- A subscriber notification, as issued by `_notifySubscribers` (per-widget,
with the `isEphemeral` flag) or `_notifyGlobalSubscribers`. -/
inductive Notify where
  | widget (id : String) (isEphemeral : Bool)
  | global
deriving DecidableEq

/-- `DashboardConfig.widget.defaultWidth`. -/
def configDefaultWidth : Int := 4

/-- `DashboardConfig.widget.defaultHeight`. -/
def configDefaultHeight : Int := 3

/-- `DashboardConfig.storage.version`. -/
def configStorageVersion : Int := 1

/-- `StateManager` instance state.  `pendingSave` records whether an idle save
callback is scheduled (`_pendingSaveHandle !== null`); `notifyLog` records the
notifications issued, in order. -/
structure SMState where
  layoutState : List (String × WPartial)
  ephemeralState : List (String × WPartial)
  dirtyWidgets : List String
  pendingSave : Bool
  updateCount : Nat
  notifyLog : List Notify
deriving DecidableEq

/-- A freshly constructed `StateManager` (constructor, lines 13-37). -/
def SMState.initState : SMState :=
  { layoutState := []
    ephemeralState := []
    dirtyWidgets := []
    pendingSave := false
    updateCount := 0
    notifyLog := [] }

/-- `StateManager.getWidgetState` (lines 55-57): `_layoutState.get(id) || null`. -/
def SMState.getWidgetState (s : SMState) (widgetId : String) : Option WPartial :=
  mlookup s.layoutState widgetId

/-- `StateManager.getAllWidgetStates` (lines 62-67): each entry paired with its id. -/
def SMState.getAllWidgetStates (s : SMState) : List (String × WPartial) :=
  s.layoutState

/-- `StateManager.setWidgetState` (lines 72-95). -/
def SMState.setWidgetState (s : SMState) (widgetId : String) (newState : WPartial)
    (ephemeral silent : Bool) : SMState :=
  let s1 : SMState :=
    if ephemeral then
      { s with ephemeralState := mset s.ephemeralState widgetId newState }
    else
      { s with
          layoutState :=
            mset s.layoutState widgetId
              (pmergeOpt (mlookup s.layoutState widgetId) newState)
          dirtyWidgets := saddElem s.dirtyWidgets widgetId
          updateCount := s.updateCount + 1
          pendingSave := true }
  if silent then s1
  else { s1 with notifyLog := s1.notifyLog ++ [.widget widgetId ephemeral] }

/-- `StateManager.commitEphemeralState` (lines 100-106). -/
def SMState.commitEphemeralState (s : SMState) (widgetId : String) : SMState :=
  match mlookup s.ephemeralState widgetId with
  | some eph =>
    let s1 := s.setWidgetState widgetId eph false false
    { s1 with ephemeralState := merase s1.ephemeralState widgetId }
  | none => s

/-- `StateManager.discardEphemeralState` (lines 111-114). -/
def SMState.discardEphemeralState (s : SMState) (widgetId : String) : SMState :=
  { s with
      ephemeralState := merase s.ephemeralState widgetId
      notifyLog := s.notifyLog ++ [.widget widgetId false] }

/-- `StateManager.getCurrentPosition` (lines 119-126): the ephemeral position
if one exists, else the persistent one, else `null`. -/
def SMState.getCurrentPosition (s : SMState) (widgetId : String) :
    Option (Option Int × Option Int) :=
  match mlookup s.ephemeralState widgetId with
  | some eph => some (eph.x, eph.y)
  | none =>
    match mlookup s.layoutState widgetId with
    | some persistent => some (persistent.x, persistent.y)
    | none => none

/-- One element of the `batchUpdate` argument list. -/
structure BatchItem where
  widgetId : String
  state : WPartial
  ephemeral : Bool
deriving DecidableEq

/-- `StateManager.batchUpdate` (lines 131-150). -/
def SMState.batchUpdate (s : SMState) (updates : List BatchItem) : SMState :=
  let s1 := updates.foldl
    (fun acc u =>
      if u.ephemeral then
        { acc with ephemeralState := mset acc.ephemeralState u.widgetId u.state }
      else
        { acc with
            layoutState :=
              mset acc.layoutState u.widgetId
                (pmergeOpt (mlookup acc.layoutState u.widgetId) u.state)
            dirtyWidgets := saddElem acc.dirtyWidgets u.widgetId }) s
  { s1 with
      updateCount := s1.updateCount + 1
      pendingSave := true
      notifyLog := s1.notifyLog ++ [.global] }

/-- The configuration object passed to `StateManager.addWidget`. -/
structure AddConfig where
  type : String
  x : Option Int := none
  y : Option Int := none
  width : Option Int := none
  height : Option Int := none
  data : Option Nat := none
deriving DecidableEq

/-- `StateManager.addWidget` (lines 177-194): full entry with geometry
defaults, mark dirty, schedule save, notify globally. -/
def SMState.addWidget (s : SMState) (widgetId : String) (config : AddConfig) :
    SMState :=
  { s with
      layoutState :=
        mset s.layoutState widgetId
          { type := some config.type
            x := some (config.x.getD 0)
            y := some (config.y.getD 0)
            width := some (config.width.getD configDefaultWidth)
            height := some (config.height.getD configDefaultHeight)
            data := some (config.data.getD 0)
            visible := some true }
      dirtyWidgets := saddElem s.dirtyWidgets widgetId
      pendingSave := true
      notifyLog := s.notifyLog ++ [.global] }

/-- `StateManager.removeWidget` (lines 199-206). -/
def SMState.removeWidget (s : SMState) (widgetId : String) : SMState :=
  { s with
      layoutState := merase s.layoutState widgetId
      ephemeralState := merase s.ephemeralState widgetId
      dirtyWidgets := saddElem s.dirtyWidgets widgetId
      pendingSave := true
      notifyLog := s.notifyLog ++ [.global] }

/-- Compact per-widget serialization record `{t, x, y, w, h}`. -/
structure CompactW where
  t : Option String
  x : Option Int
  y : Option Int
  w : Option Int
  h : Option Int
deriving DecidableEq

/-- Persisted layout payload `{ v, widgets }`. -/
structure LayoutData where
  v : Int
  widgets : List (String × CompactW)
deriving DecidableEq

/-- The compact serialization of one entry (`{t, x, y, w, h}`, lines 215-221). -/
def compactOf (w : WPartial) : CompactW :=
  { t := w.type, x := w.x, y := w.y, w := w.width, h := w.height }

/-- `StateManager.exportLayout` (lines 211-227). -/
def SMState.exportLayout (s : SMState) : LayoutData :=
  { v := configStorageVersion
    widgets := s.layoutState.map (fun e => (e.1, compactOf e.2)) }

/-- Expansion of a compact record on import: geometry and type from the
payload, `data` reset to `{}`, `visible` reset to `true`. -/
def expandCompact (c : CompactW) : WPartial :=
  { type := c.t, x := c.x, y := c.y, width := c.w, height := c.h,
    data := some 0, visible := some true }

/-- `StateManager.importLayout` (lines 232-254): reject on a missing payload
or a schema-version mismatch, otherwise clear the map and rebuild it from the
payload, then notify globally. -/
def SMState.importLayout (s : SMState) (d : Option LayoutData) : Bool × SMState :=
  match d with
  | none => (false, s)
  | some ld =>
    if ld.v ≠ configStorageVersion then (false, s)
    else
      (true,
        { s with
            layoutState :=
              ld.widgets.foldl (fun m e => mset m e.1 (expandCompact e.2)) []
            notifyLog := s.notifyLog ++ [.global] })

/-! ## DragDropManager

Pixel quantities are embedded as rationals; `Math.round` is `jsRound`
(round half toward positive infinity, as in JavaScript); `Math.min` /
`Math.max` are `qmin` / `qmax`. -/

/-- JavaScript `Math.round`: floor of the argument plus one half. -/
def jsRound (q : Rat) : Int := ⌊q + 1 / 2⌋

/-- JavaScript `Math.min` on two numbers. -/
def qmin (a b : Rat) : Rat := if a ≤ b then a else b

/-- JavaScript `Math.max` on two numbers. -/
def qmax (a b : Rat) : Rat := if a ≤ b then b else a

/-- `DragDropManager` instance state during a drag.  `rafPending` embeds the
scheduled animation-frame callback: `some (clientX, clientY)` holds the
pointer coordinates captured when the callback was scheduled (`_rafId` is
non-null exactly when this is `some`).  `ephemeralWrites` logs, in order, each
`setWidgetState(..., { ephemeral: true, silent: true })` call issued by the
frame callback. -/
structure DragState where
  isDragging : Bool
  hasElement : Bool
  rafPending : Option (Rat × Rat)
  containerLeft : Rat
  containerTop : Rat
  containerWidth : Rat
  containerHeight : Rat
  offsetX : Rat
  offsetY : Rat
  startX : Rat
  startY : Rat
  currentX : Rat
  currentY : Rat
  elemWidth : Rat
  elemHeight : Rat
  gridSizeX : Rat
  gridSizeY : Rat
  frameCount : Nat
  ephemeralWrites : List (Int × Int)
deriving DecidableEq

/-- The clamped snapped pixel position computed by the frame callback of
`_updateDrag` (lines 195-212) from the captured pointer coordinates. -/
def DragState.framePos (s : DragState) (clientX clientY : Rat) : Rat × Rat :=
  let newX := clientX - s.containerLeft - s.offsetX
  let newY := clientY - s.containerTop - s.offsetY
  let snappedX := (jsRound (newX / s.gridSizeX) : Rat) * s.gridSizeX
  let snappedY := (jsRound (newY / s.gridSizeY) : Rat) * s.gridSizeY
  let maxX := s.containerWidth - s.elemWidth
  let maxY := s.containerHeight - s.elemHeight
  (qmax 0 (qmin snappedX maxX), qmax 0 (qmin snappedY maxY))

/-- The grid cell written to ephemeral state by the frame callback
(lines 224-230). -/
def DragState.frameWrite (s : DragState) (clientX clientY : Rat) : Int × Int :=
  let p := s.framePos clientX clientY
  (jsRound (p.1 / s.gridSizeX), jsRound (p.2 / s.gridSizeY))

/-- `DragDropManager._updateDrag` (lines 186-234) up to the frame firing:
ignored unless a drag is active; if a frame callback is already pending the
move is dropped; otherwise a callback is scheduled capturing the current
pointer coordinates. -/
def DragState.updateDrag (s : DragState) (clientX clientY : Rat) : DragState :=
  if !s.isDragging || !s.hasElement then s
  else if s.rafPending.isSome then s
  else { s with rafPending := some (clientX, clientY) }

/-- The animation-frame callback firing (body of the `requestAnimationFrame`
closure in `_updateDrag`): clear the handle, recompute the snapped clamped
position from the captured coordinates, and issue exactly one ephemeral
silent state write. -/
def DragState.fireFrame (s : DragState) : DragState :=
  match s.rafPending with
  | none => s
  | some (cx, cy) =>
    let p := s.framePos cx cy
    { s with
        rafPending := none
        currentX := p.1
        currentY := p.2
        ephemeralWrites := s.ephemeralWrites ++ [s.frameWrite cx cy]
        frameCount := s.frameCount + 1 }

/-- A sequence of pointer-move events processed in order. -/
def DragState.processMoves (s : DragState) (moves : List (Rat × Rat)) : DragState :=
  moves.foldl (fun st m => st.updateDrag m.1 m.2) s

/-! ## LayoutManager -/

/-- `DashboardConfig.grid.columns`. -/
def configGridColumns : Nat := 12

/-- `DashboardConfig.grid.breakpoints`, in object-property order:
(name, minWidth, columns). -/
def breakpointTable : List (String × Nat × Nat) :=
  [("xl", 1400, 12), ("lg", 1200, 10), ("md", 900, 8), ("sm", 600, 6), ("xs", 0, 4)]

/-- Breakpoint selection in `LayoutManager._updateGridMetrics` (lines
477-482): start from `'xs'` and overwrite with every table entry whose
`minWidth` the container width meets. -/
def selectBreakpoint (containerWidth : Nat) : String :=
  breakpointTable.foldl
    (fun cur e => if containerWidth ≥ e.2.1 then e.1 else cur) "xs"

/-- The column count of the selected breakpoint
(`breakpoints[currentBreakpoint].columns`, line 484). -/
def breakpointColumns (containerWidth : Nat) : Nat :=
  ((breakpointTable.find?
      (fun e => e.1 == selectBreakpoint containerWidth)).map
    (fun e => e.2.2)).getD 0

/-- A widget as seen by `_findAvailablePosition`: integer grid geometry. -/
structure PlacedW where
  x : Int
  y : Int
  width : Int
  height : Int
deriving DecidableEq

/-- Membership of a grid cell in the occupancy set built by
`_findAvailablePosition` (lines 348-356). -/
def cellOccupied (ws : List PlacedW) (cx cy : Int) : Bool :=
  ws.any (fun w =>
    decide (w.x ≤ cx) && decide (cx < w.x + w.width) &&
    decide (w.y ≤ cy) && decide (cy < w.y + w.height))

/-- The footprint check of the candidate origin (lines 363-369). -/
def footprintFree (ws : List PlacedW) (px py w h : Nat) : Bool :=
  (List.range w).all (fun dx => (List.range h).all (fun dy =>
    !cellOccupied ws ((px + dx : Nat) : Int) ((py + dy : Nat) : Int)))

/-- Number of candidate x origins scanned per row: `0 ≤ x ≤ columns - width`
(empty when the width exceeds the column count). -/
def xCandidates (w : Nat) : Nat := configGridColumns + 1 - w

/-- The inner column scan of `_findAvailablePosition`: first free origin at
`x, x+1, ...` within `count` remaining candidates. -/
def firstFreeX (ws : List PlacedW) (w h y : Nat) : Nat → Nat → Option Nat
  | _, 0 => none
  | x, count + 1 =>
    if footprintFree ws x y w h then some x else firstFreeX ws w h y (x + 1) count

/-- The outer row scan of `_findAvailablePosition`: first row-major free
origin starting at row `y`, within `rows` remaining rows. -/
def firstFreePos (ws : List PlacedW) (w h : Nat) : Nat → Nat → Option (Nat × Nat)
  | _, 0 => none
  | y, rows + 1 =>
    match firstFreeX ws w h y 0 (xCandidates w) with
    | some x => some (x, y)
    | none => firstFreePos ws w h (y + 1) rows

/-- `LayoutManager._findAvailablePosition` (lines 343-378): row-major scan of
rows 0..99, falling back to the origin. -/
def findAvailablePosition (ws : List PlacedW) (w h : Nat) : Int × Int :=
  match firstFreePos ws w h 0 100 with
  | some p => ((p.1 : Int), (p.2 : Int))
  | none => (0, 0)

/-- The per-widget effect of `_reflowLayout` on a state entry. -/
def reflowTransform (columns : Int) (st : WPartial) : WPartial :=
  match st.x, st.width with
  | some x, some w =>
    if x + w > columns then { st with x := some (max 0 (columns - w)) } else st
  | _, _ => st

/-- One iteration of the `_reflowLayout` loop (lines 503-508): if the
snapshot entry's right edge exceeds the new column count, silently set its
`x` to `Math.max(0, columns - state.width)`.  (JavaScript comparisons against
an undefined field are false, so entries lacking `x` or `width` are
skipped.) -/
def reflowStep (columns : Int) (acc : SMState) (e : String × WPartial) :
    SMState :=
  match e.2.x, e.2.width with
  | some x, some w =>
    if x + w > columns then
      acc.setWidgetState e.1 { x := some (max 0 (columns - w)) } false true
    else acc
  | _, _ => acc

/-- `LayoutManager._reflowLayout` (lines 497-514) as it acts on the state
store: snapshot all widget states, then silently clamp the `x` of every
widget whose right edge exceeds the new column count. -/
def reflowLayout (s : SMState) (columns : Int) : SMState :=
  s.getAllWidgetStates.foldl (reflowStep columns) s

/-! ## Association-list map lemmas -/

theorem mlookup_nil {α : Type _} (k : String) :
    mlookup ([] : List (String × α)) k = none := rfl

theorem mlookup_cons {α : Type _} (e : String × α) (t : List (String × α))
    (k : String) :
    mlookup (e :: t) k = if e.1 = k then some e.2 else mlookup t k := by
  by_cases h : e.1 = k <;> simp [mlookup, List.find?_cons, h]

theorem mlookup_mset_self {α : Type _} (m : List (String × α)) (k : String)
    (v : α) : mlookup (mset m k v) k = some v := by
  induction m with
  | nil => simp [mset, mlookup_cons]
  | cons e t ih =>
    by_cases h : e.1 = k
    · simp [mset, h, mlookup_cons]
    · simp [mset, h, mlookup_cons, ih]

theorem mlookup_mset_ne {α : Type _} (m : List (String × α)) (k k' : String)
    (v : α) (h : k' ≠ k) : mlookup (mset m k v) k' = mlookup m k' := by
  have hkk : k ≠ k' := Ne.symm h
  induction m with
  | nil => simp [mset, mlookup_cons, mlookup_nil, hkk]
  | cons e t ih =>
    by_cases he : e.1 = k
    · subst he
      have h2 : e.1 ≠ k' := Ne.symm h
      simp [mset, mlookup_cons, h2]
    · simp [mset, he, mlookup_cons, ih]

theorem mlookup_merase_self {α : Type _} (m : List (String × α)) (k : String) :
    mlookup (merase m k) k = none := by
  induction m with
  | nil => rfl
  | cons e t ih =>
    simp only [merase, List.filter_cons] at ih ⊢
    by_cases he : e.1 = k
    · simpa [he] using ih
    · simpa [he, mlookup_cons] using ih

theorem mlookup_merase_ne {α : Type _} (m : List (String × α)) (k k' : String)
    (h : k' ≠ k) : mlookup (merase m k) k' = mlookup m k' := by
  induction m with
  | nil => rfl
  | cons e t ih =>
    simp only [merase, List.filter_cons] at ih ⊢
    by_cases he : e.1 = k
    · simp [he, mlookup_cons, Ne.symm h, ih]
    · simp [he, mlookup_cons, ih]

theorem mlookup_map_snd {α β : Type _} (f : α → β) (m : List (String × α))
    (k : String) :
    mlookup (m.map (fun e => (e.1, f e.2))) k = (mlookup m k).map f := by
  induction m with
  | nil => rfl
  | cons e t ih =>
    by_cases h : e.1 = k <;> simp [mlookup_cons, h, ih]

theorem mlookup_append_right {α : Type _} (m₁ m₂ : List (String × α))
    (k : String) (h : mlookup m₁ k = none) :
    mlookup (m₁ ++ m₂) k = mlookup m₂ k := by
  induction m₁ with
  | nil => rfl
  | cons e t ih =>
    rw [mlookup_cons] at h
    by_cases he : e.1 = k
    · simp [he] at h
    · rw [if_neg he] at h
      simpa [mlookup_cons, he] using ih h

theorem mlookup_of_mem_nodup {α : Type _} (m : List (String × α))
    (hnd : (m.map (fun e => e.1)).Nodup) (k : String) (v : α)
    (hmem : (k, v) ∈ m) : mlookup m k = some v := by
  induction m with
  | nil => cases hmem
  | cons e t ih =>
    rcases List.mem_cons.mp hmem with h | h
    · rw [← h, mlookup_cons]
      simp
    · have hk : e.1 ≠ k := by
        intro hek
        subst hek
        exact (List.nodup_cons.mp hnd).1 (List.mem_map.mpr ⟨(e.1, v), h, rfl⟩)
      rw [mlookup_cons, if_neg hk]
      exact ih (List.nodup_cons.mp hnd).2 h

/-! ## WidgetRegistry theorems -/

theorem get_while_pending (s : RegState) (t : String) (p : Nat)
    (hreg : mlookup s.registry t ≠ none)
    (hload : mlookup s.loadedModules t = none)
    (hpend : mlookup s.loadingPromises t = some p) :
    (s.get t).1 = .loading p ∧
    (s.get t).2.registry = s.registry ∧
    (s.get t).2.loadedModules = s.loadedModules ∧
    (s.get t).2.loadingPromises = s.loadingPromises ∧
    (s.get t).2.loaderCalls = s.loaderCalls := by
  obtain ⟨e, he⟩ := Option.ne_none_iff_exists'.mp hreg
  simp [RegState.get, he, hload, hpend]

theorem getN_while_pending (t : String) (p : Nat) :
    ∀ (n : Nat) (s : RegState), mlookup s.registry t ≠ none →
      mlookup s.loadedModules t = none →
      mlookup s.loadingPromises t = some p →
      (s.getN t n).1 = List.replicate n (.loading p) ∧
      (s.getN t n).2.loaderCalls = s.loaderCalls := by
  intro n
  induction n with
  | zero => intro s _ _ _; exact ⟨rfl, rfl⟩
  | succ n ih =>
    intro s hreg hload hpend
    obtain ⟨h1, h2, h3, h4, h5⟩ := get_while_pending s t p hreg hload hpend
    have hrec := ih (s.get t).2 (h2 ▸ hreg) (h3 ▸ hload) (h4 ▸ hpend)
    simp only [RegState.getN, h1, List.replicate_succ]
    exact ⟨by rw [hrec.1], by rw [hrec.2, h5]⟩

/-- C1: while a load for a registered type is pending, every additional
`get(type)` call returns the same pending promise, and across the initiating
call plus `n` calls made while the load is pending the underlying loader is
invoked exactly once; since all callers hold the same promise, all resolve to
the identical implementation reference. -/
theorem registry_get_dedupes_pending_loads (s : RegState) (t : String) (n : Nat)
    (hreg : mlookup s.registry t ≠ none)
    (hload : mlookup s.loadedModules t = none)
    (hpend : mlookup s.loadingPromises t = none) :
    ∃ p : Nat,
      (s.get t).1 = .loading p ∧
      ((s.get t).2.getN t n).1 = List.replicate n (.loading p) ∧
      ((s.get t).2.getN t n).2.loaderCalls = s.loaderCalls + 1 := by
  obtain ⟨e, he⟩ := Option.ne_none_iff_exists'.mp hreg
  refine ⟨s.nextPromise, ?_, ?_⟩
  · simp [RegState.get, he, hload, hpend]
  · have hstate : (s.get t).2.registry = s.registry ∧
        (s.get t).2.loadedModules = s.loadedModules ∧
        (s.get t).2.loadingPromises = mset s.loadingPromises t s.nextPromise ∧
        (s.get t).2.loaderCalls = s.loaderCalls + 1 := by
      simp [RegState.get, he, hload, hpend]
    obtain ⟨h2, h3, h4, h5⟩ := hstate
    have hrec := getN_while_pending t s.nextPromise n (s.get t).2
      (h2 ▸ hreg) (h3 ▸ hload) (by rw [h4]; exact mlookup_mset_self _ _ _)
    exact ⟨hrec.1, by rw [hrec.2, h5]⟩

/-- Concrete registry state: one registered, unloaded, not-loading type. -/
def regWitness : RegState :=
  { registry := [("kpi", ⟨"kpi", 7, "KPI", "general", 3, 2, 1, false⟩)]
    loadedModules := []
    loadingPromises := []
    usageStats := [("kpi", 0)]
    nextPromise := 0
    loaderCalls := 0 }

/-- Witness for C1 at a concrete registry state and three pending callers. -/
theorem registry_get_dedupes_pending_loads_witness :
    ∃ p : Nat,
      (regWitness.get "kpi").1 = .loading p ∧
      ((regWitness.get "kpi").2.getN "kpi" 3).1 = List.replicate 3 (.loading p) ∧
      ((regWitness.get "kpi").2.getN "kpi" 3).2.loaderCalls =
        regWitness.loaderCalls + 1 :=
  registry_get_dedupes_pending_loads regWitness "kpi" 3 (by decide) rfl rfl

/-- C9: `get(type)` fails with the not-registered error exactly when the type
has no registry entry; the load fails with a load error exactly when the
loader rejects, or when its module has no default export, no export named
after the type, and no first exported value; and the settled outcome is what
every caller of `get` awaiting the load observes. -/
theorem registry_error_conditions :
    (∀ (s : RegState) (t : String),
      (s.get t).1 = .notRegistered ↔ mlookup s.registry t = none) ∧
    (∀ t : String, loadWidget t none = .loaderRejected) ∧
    (∀ (t : String) (m : ModuleExports),
      loadWidget t (some m) = .noUsableExport ↔
        mlookup m.exports "default" = none ∧ mlookup m.exports t = none ∧
        m.exports.head? = none) ∧
    (∀ (s : RegState) (t : String) (r : Option ModuleExports),
      (s.resolveLoad t r).1 = loadWidget t r) := by
  refine ⟨?_, fun _ => rfl, ?_, ?_⟩
  · intro s t
    constructor
    · intro h
      by_contra hne
      obtain ⟨e, he⟩ := Option.ne_none_iff_exists'.mp hne
      rcases hl : mlookup s.loadedModules t with _ | w
      · rcases hp : mlookup s.loadingPromises t with _ | q
        · simp [RegState.get, he, hl, hp] at h
        · simp [RegState.get, he, hl, hp] at h
      · simp [RegState.get, he, hl] at h
    · intro h
      simp [RegState.get, h]
  · intro t m
    rw [loadWidget]
    rcases hd : mlookup m.exports "default" with _ | w
    · rcases hn : mlookup m.exports t with _ | w
      · rcases hh : m.exports.head? with _ | e
        · simp [hd, hn, hh, Option.orElse]
        · simp [hd, hn, hh, Option.orElse]
      · simp [hd, hn, Option.orElse]
    · simp [hd, Option.orElse]
  · intro s t r
    rcases h : loadWidget t r with _ | _ | w <;>
      simp [RegState.resolveLoad, h]

/-! ## Breakpoint selection (C3) -/

/-- C3 (refuting the claim at the failing input): the breakpoint-selection
loop of `_updateGridMetrics` overwrites its result on every matching table
entry and the `'xs'` entry (minimum width 0) is iterated last, so every
container width — including 1500, which the claim says selects `'xl'` with 12
columns — selects `'xs'` with 4 columns. -/
theorem breakpoint_selection_always_xs :
    selectBreakpoint 1500 = "xs" ∧ breakpointColumns 1500 = 4 ∧
    "xs" ≠ "xl" ∧
    ∀ w : Nat, selectBreakpoint w = "xs" ∧ breakpointColumns w = 4 := by
  refine ⟨rfl, rfl, by decide, ?_⟩
  intro w
  have hsel : selectBreakpoint w = "xs" := by
    simp [selectBreakpoint, breakpointTable]
  exact ⟨hsel, by simp [breakpointColumns, hsel, breakpointTable]⟩

/-! ## StateManager theorems -/

/-- C4: an ephemeral `setWidgetState` leaves the persistent map, the dirty
set and the pending-save schedule unchanged; `commitEphemeralState` is a
no-op without an ephemeral entry, and with one it removes the entry and makes
the persistent state the spread-merge of the old persistent state with the
ephemeral values, so every field present in the ephemeral entry is reflected
in the resulting persistent state. -/
theorem ephemeral_write_isolation_and_commit :
    (∀ (s : SMState) (id : String) (p : WPartial) (silent : Bool),
      (s.setWidgetState id p true silent).layoutState = s.layoutState ∧
      (s.setWidgetState id p true silent).dirtyWidgets = s.dirtyWidgets ∧
      (s.setWidgetState id p true silent).pendingSave = s.pendingSave) ∧
    (∀ (s : SMState) (id : String), mlookup s.ephemeralState id = none →
      s.commitEphemeralState id = s) ∧
    (∀ (s : SMState) (id : String) (eph : WPartial),
      mlookup s.ephemeralState id = some eph →
      mlookup (s.commitEphemeralState id).ephemeralState id = none ∧
      mlookup (s.commitEphemeralState id).layoutState id =
        some (pmergeOpt (mlookup s.layoutState id) eph)) ∧
    (∀ (cur : Option WPartial) (eph : WPartial),
      (∀ v, eph.type = some v → (pmergeOpt cur eph).type = some v) ∧
      (∀ v, eph.x = some v → (pmergeOpt cur eph).x = some v) ∧
      (∀ v, eph.y = some v → (pmergeOpt cur eph).y = some v) ∧
      (∀ v, eph.width = some v → (pmergeOpt cur eph).width = some v) ∧
      (∀ v, eph.height = some v → (pmergeOpt cur eph).height = some v) ∧
      (∀ v, eph.data = some v → (pmergeOpt cur eph).data = some v) ∧
      (∀ v, eph.visible = some v → (pmergeOpt cur eph).visible = some v)) := by
  refine ⟨?_, ?_, ?_, ?_⟩
  · intro s id p silent
    cases silent <;> simp [SMState.setWidgetState]
  · intro s id h
    simp [SMState.commitEphemeralState, h]
  · intro s id eph h
    refine ⟨?_, ?_⟩
    · simp [SMState.commitEphemeralState, h, SMState.setWidgetState,
        mlookup_merase_self]
    · simp [SMState.commitEphemeralState, h, SMState.setWidgetState,
        mlookup_mset_self]
  · intro cur eph
    cases cur <;>
      refine ⟨?_, ?_, ?_, ?_, ?_, ?_, ?_⟩ <;>
      intro v hv <;> simp [pmergeOpt, pmerge, hv]

/-- A small populated store: one widget added through the API. -/
def smWitness : SMState := SMState.initState.addWidget "a" { type := "kpi" }

/-- A drag-style ephemeral position object. -/
def ephWitness : WPartial := { x := some 5, y := some 6 }

/-- The store after an ephemeral silent write to widget "a". -/
def smWitnessEph : SMState := smWitness.setWidgetState "a" ephWitness true true

/-- Witness for C4 at a concrete store, ephemeral write and commit. -/
theorem ephemeral_write_isolation_and_commit_witness :
    (smWitnessEph.layoutState = smWitness.layoutState ∧
     smWitnessEph.dirtyWidgets = smWitness.dirtyWidgets ∧
     smWitnessEph.pendingSave = smWitness.pendingSave) ∧
    smWitness.commitEphemeralState "a" = smWitness ∧
    (mlookup (smWitnessEph.commitEphemeralState "a").ephemeralState "a" = none ∧
     mlookup (smWitnessEph.commitEphemeralState "a").layoutState "a" =
       some (pmergeOpt (mlookup smWitnessEph.layoutState "a") ephWitness)) ∧
    (∀ v, ephWitness.x = some v →
      (pmergeOpt (mlookup smWitnessEph.layoutState "a") ephWitness).x = some v) :=
  ⟨ephemeral_write_isolation_and_commit.1 smWitness "a" ephWitness true,
   ephemeral_write_isolation_and_commit.2.1 smWitness "a" rfl,
   ephemeral_write_isolation_and_commit.2.2.1 smWitnessEph "a" ephWitness rfl,
   fun v => ((ephemeral_write_isolation_and_commit.2.2.2
     (mlookup smWitnessEph.layoutState "a") ephWitness).2.1) v⟩

/-- C8: `importLayout` of an absent payload or one whose schema version
differs from the configured version returns `false` and leaves the entire
prior state — widget map included — unchanged. -/
theorem import_version_mismatch_atomic :
    (∀ s : SMState, s.importLayout none = (false, s)) ∧
    (∀ (s : SMState) (ld : LayoutData), ld.v ≠ configStorageVersion →
      s.importLayout (some ld) = (false, s)) := by
  refine ⟨fun s => rfl, ?_⟩
  intro s ld h
  simp [SMState.importLayout, h]

/-- Witness for C8: a populated store rejects a version-2 payload untouched. -/
theorem import_version_mismatch_atomic_witness :
    smWitness.importLayout none = (false, smWitness) ∧
    smWitness.importLayout (some { v := 2, widgets := [] }) =
      (false, smWitness) :=
  ⟨import_version_mismatch_atomic.1 smWitness,
   import_version_mismatch_atomic.2 smWitness { v := 2, widgets := [] }
     (by decide)⟩

theorem mset_eq_append {α : Type _} (m : List (String × α)) (k : String)
    (v : α) (h : mlookup m k = none) : mset m k v = m ++ [(k, v)] := by
  induction m with
  | nil => rfl
  | cons e t ih =>
    rw [mlookup_cons] at h
    by_cases he : e.1 = k
    · simp [he] at h
    · rw [if_neg he] at h
      simp [mset, he, ih h]

theorem foldl_mset_fresh {α β : Type _} (f : α → β) :
    ∀ (l : List (String × α)) (acc : List (String × β)),
      (l.map (fun e => e.1)).Nodup →
      (∀ e ∈ l, mlookup acc e.1 = none) →
      l.foldl (fun m e => mset m e.1 (f e.2)) acc =
        acc ++ l.map (fun e => (e.1, f e.2)) := by
  intro l
  induction l with
  | nil => intro acc _ _; simp
  | cons e t ih =>
    intro acc hnd hfresh
    have hacc : mlookup acc e.1 = none := hfresh e (List.mem_cons_self e t)
    have hstep : mset acc e.1 (f e.2) = acc ++ [(e.1, f e.2)] :=
      mset_eq_append acc e.1 (f e.2) hacc
    have hfresh2 : ∀ e' ∈ t, mlookup (acc ++ [(e.1, f e.2)]) e'.1 = none := by
      intro e' he'
      have hne : e'.1 ≠ e.1 := by
        intro hq
        have hmem : e'.1 ∈ List.map (fun e => e.1) t :=
          List.mem_map.mpr ⟨e', he', rfl⟩
        apply (List.nodup_cons.mp hnd).1
        show e.1 ∈ List.map (fun e => e.1) t
        rw [← hq]
        exact hmem
      rw [mlookup_append_right _ _ _ (hfresh e' (List.mem_cons_of_mem e he')),
        mlookup_cons, if_neg (Ne.symm hne)]
      rfl
    calc (e :: t).foldl (fun m e => mset m e.1 (f e.2)) acc
        = t.foldl (fun m e => mset m e.1 (f e.2)) (acc ++ [(e.1, f e.2)]) := by
          rw [List.foldl_cons, hstep]
      _ = acc ++ [(e.1, f e.2)] ++ t.map (fun e => (e.1, f e.2)) :=
          ih (acc ++ [(e.1, f e.2)]) (List.nodup_cons.mp hnd).2 hfresh2
      _ = acc ++ (e :: t).map (fun e => (e.1, f e.2)) := by simp

/-- C5: exporting a store (with, as in a `Map`, no duplicate ids) and
importing the payload into a fresh store succeeds and reproduces, for every
widget id, the identical (type, x, y, width, height) tuple; the opaque `data`
payload is not part of the serialized form. -/
theorem export_import_roundtrip (s : SMState)
    (hnd : (s.layoutState.map (fun e => e.1)).Nodup) :
    (SMState.initState.importLayout (some s.exportLayout)).1 = true ∧
    ∀ id : String,
      ((SMState.initState.importLayout (some s.exportLayout)).2.getWidgetState
          id).map (fun w => (w.type, w.x, w.y, w.width, w.height)) =
        (s.getWidgetState id).map
          (fun w => (w.type, w.x, w.y, w.width, w.height)) := by
  constructor
  · simp [SMState.importLayout, SMState.exportLayout, configStorageVersion]
  · intro id
    have hkeys : ((s.exportLayout.widgets).map (fun e => e.1)).Nodup := by
      simpa [SMState.exportLayout, List.map_map, Function.comp] using hnd
    have hfold := foldl_mset_fresh expandCompact s.exportLayout.widgets []
      hkeys (fun e _ => rfl)
    have hv : ¬s.exportLayout.v ≠ configStorageVersion := by
      simp [SMState.exportLayout]
    have hlayout :
        (SMState.initState.importLayout (some s.exportLayout)).2.layoutState =
          s.exportLayout.widgets.map (fun e => (e.1, expandCompact e.2)) := by
      simp only [SMState.importLayout]
      rw [if_neg hv]
      simpa using hfold
    have hwidgets :
        s.exportLayout.widgets.map (fun e => (e.1, expandCompact e.2)) =
          s.layoutState.map (fun e => (e.1, expandCompact (compactOf e.2))) := by
      simp [SMState.exportLayout, List.map_map, Function.comp]
    have hmap := mlookup_map_snd (fun w => expandCompact (compactOf w))
      s.layoutState id
    rw [SMState.getWidgetState, hlayout, hwidgets, hmap, SMState.getWidgetState]
    cases mlookup s.layoutState id <;> simp [expandCompact, compactOf]

/-- A two-widget store with distinct ids for the round-trip witness. -/
def smRound : SMState :=
  (SMState.initState.addWidget "a" { type := "kpi", x := some 1, y := some 2 }).addWidget
    "b" { type := "chart", width := some 6, height := some 2 }

/-- Witness for C5 at a concrete two-widget store. -/
theorem export_import_roundtrip_witness :
    (SMState.initState.importLayout (some smRound.exportLayout)).1 = true ∧
    ∀ id : String,
      ((SMState.initState.importLayout (some smRound.exportLayout)).2.getWidgetState
          id).map (fun w => (w.type, w.x, w.y, w.width, w.height)) =
        (smRound.getWidgetState id).map
          (fun w => (w.type, w.x, w.y, w.width, w.height)) :=
  export_import_roundtrip smRound (by decide)

/-! ## DragDropManager theorems -/

theorem updateDrag_schedules (s : DragState) (cx cy : Rat)
    (hd : s.isDragging = true) (he : s.hasElement = true)
    (hp : s.rafPending = none) :
    s.updateDrag cx cy = { s with rafPending := some (cx, cy) } := by
  simp [DragState.updateDrag, hd, he, hp]

theorem updateDrag_drops (s : DragState) (cx cy : Rat)
    (hp : s.rafPending.isSome = true) : s.updateDrag cx cy = s := by
  by_cases hd : (!s.isDragging || !s.hasElement) = true
  · simp [DragState.updateDrag, hd]
  · simp [DragState.updateDrag, hd, hp]

theorem processMoves_drops (s : DragState) (moves : List (Rat × Rat))
    (hp : s.rafPending.isSome = true) : s.processMoves moves = s := by
  induction moves with
  | nil => rfl
  | cons m t ih =>
    simp only [DragState.processMoves, List.foldl_cons] at ih ⊢
    rw [updateDrag_drops s m.1 m.2 hp]
    exact ih

/-- C2 as amended: during an active drag with no pending frame callback, a
sequence of pointer-move events followed by a single animation-frame firing
produces exactly one ephemeral state write, and the write uses the
coordinates of the first pointer-move of the sequence — every later move
arriving while the callback is pending is dropped. -/
theorem drag_coalescing_uses_first_coords (s : DragState) (m : Rat × Rat)
    (moves : List (Rat × Rat)) (hd : s.isDragging = true)
    (he : s.hasElement = true) (hp : s.rafPending = none) :
    ((s.processMoves (m :: moves)).fireFrame).ephemeralWrites =
      s.ephemeralWrites ++ [s.frameWrite m.1 m.2] ∧
    ((s.processMoves (m :: moves)).fireFrame).ephemeralWrites.length =
      s.ephemeralWrites.length + 1 := by
  have h1 : s.processMoves (m :: moves) = { s with rafPending := some (m.1, m.2) } := by
    simp only [DragState.processMoves, List.foldl_cons]
    rw [updateDrag_schedules s m.1 m.2 hd he hp]
    exact processMoves_drops _ moves rfl
  constructor
  · rw [h1]
    simp [DragState.fireFrame, DragState.frameWrite, DragState.framePos]
  · rw [h1]
    simp [DragState.fireFrame]

/-- Drag state used to refute the last-coordinates claim: a 1376px-wide
container under the 12-column grid (column stride 116px, row stride 96px), a
100×100px widget grabbed at its corner, drag active, no pending frame. -/
def dragCex : DragState :=
  { isDragging := true
    hasElement := true
    rafPending := none
    containerLeft := 0
    containerTop := 0
    containerWidth := 1376
    containerHeight := 1000
    offsetX := 0
    offsetY := 0
    startX := 0
    startY := 0
    currentX := 0
    currentY := 0
    elemWidth := 100
    elemHeight := 100
    gridSizeX := 116
    gridSizeY := 96
    frameCount := 0
    ephemeralWrites := [] }

/-- C2 (refuting the claim as stated): two pointer-moves — to (0,0) and then
to (580,480) — before one frame produce the single write (0,0), the cell of
the first move; the last move alone would have written cell (5,5), so the
coalesced write does not use the last event's coordinates. -/
theorem drag_coalescing_last_coords_cex :
    ((dragCex.updateDrag 0 0).updateDrag 580 480).fireFrame.ephemeralWrites =
      [(0, 0)] ∧
    (dragCex.updateDrag 580 480).fireFrame.ephemeralWrites = [(5, 5)] ∧
    ((0, 0) : Int × Int) ≠ (5, 5) := by
  refine ⟨?_, ?_, by decide⟩
  · rw [updateDrag_schedules dragCex 0 0 rfl rfl rfl,
      updateDrag_drops { dragCex with rafPending := some (0, 0) } 580 480 rfl]
    simp only [DragState.fireFrame, DragState.frameWrite, DragState.framePos,
      jsRound, qmin, qmax]
    norm_num [dragCex]
  · rw [updateDrag_schedules dragCex 580 480 rfl rfl rfl]
    simp only [DragState.fireFrame, DragState.frameWrite, DragState.framePos,
      jsRound, qmin, qmax]
    norm_num [dragCex]

/-- Witness for the amended C2 at the same concrete drag state. -/
theorem drag_coalescing_uses_first_coords_witness :
    ((dragCex.processMoves ((0, 0) :: [(580, 480)])).fireFrame).ephemeralWrites =
      dragCex.ephemeralWrites ++ [dragCex.frameWrite 0 0] ∧
    ((dragCex.processMoves ((0, 0) :: [(580, 480)])).fireFrame).ephemeralWrites.length =
      dragCex.ephemeralWrites.length + 1 :=
  drag_coalescing_uses_first_coords dragCex (0, 0) [(580, 480)] rfl rfl rfl

/-! ## LayoutManager placement theorems -/

theorem firstFreeX_spec (ws : List PlacedW) (w h y : Nat) :
    ∀ (count x x' : Nat), firstFreeX ws w h y x count = some x' →
      footprintFree ws x' y w h = true ∧ x ≤ x' ∧ x' < x + count ∧
      ∀ t, x ≤ t → t < x' → footprintFree ws t y w h = false := by
  intro count
  induction count with
  | zero => intro x x' hfx; simp [firstFreeX] at hfx
  | succ c ih =>
    intro x x' hfx
    simp only [firstFreeX] at hfx
    by_cases hfree : footprintFree ws x y w h = true
    · rw [if_pos hfree] at hfx
      obtain rfl : x = x' := by simpa using hfx
      refine ⟨hfree, Nat.le_refl x, by omega, ?_⟩
      intro t ht1 ht2
      exact absurd (Nat.lt_of_le_of_lt ht1 ht2) (Nat.lt_irrefl x)
    · rw [if_neg hfree] at hfx
      obtain ⟨h1, h2, h3, h4⟩ := ih (x + 1) x' hfx
      refine ⟨h1, by omega, by omega, ?_⟩
      intro t ht1 ht2
      rcases Nat.eq_or_lt_of_le ht1 with rfl | hlt
      · simpa using hfree
      · exact h4 t hlt ht2

theorem firstFreeX_none (ws : List PlacedW) (w h y : Nat) :
    ∀ (count x : Nat), firstFreeX ws w h y x count = none →
      ∀ t, x ≤ t → t < x + count → footprintFree ws t y w h = false := by
  intro count
  induction count with
  | zero => intro x _ t ht1 ht2; exact absurd ht2 (by omega)
  | succ c ih =>
    intro x hfx t ht1 ht2
    simp only [firstFreeX] at hfx
    by_cases hfree : footprintFree ws x y w h = true
    · rw [if_pos hfree] at hfx; cases hfx
    · rw [if_neg hfree] at hfx
      rcases Nat.eq_or_lt_of_le ht1 with rfl | hlt
      · simpa using hfree
      · exact ih (x + 1) hfx t hlt (by omega)

theorem firstFreePos_spec (ws : List PlacedW) (w h : Nat) :
    ∀ (rows y : Nat) (p : Nat × Nat), firstFreePos ws w h y rows = some p →
      footprintFree ws p.1 p.2 w h = true ∧ p.1 < xCandidates w ∧
      y ≤ p.2 ∧ p.2 < y + rows ∧
      (∀ t, y ≤ t → t < p.2 → ∀ u, u < xCandidates w →
        footprintFree ws u t w h = false) ∧
      (∀ u, u < p.1 → footprintFree ws u p.2 w h = false) := by
  intro rows
  induction rows with
  | zero => intro y p hp; simp [firstFreePos] at hp
  | succ r ih =>
    intro y p hp
    cases hx : firstFreeX ws w h y 0 (xCandidates w) with
    | some x0 =>
      simp only [firstFreePos, hx, Option.some.injEq] at hp
      obtain ⟨h1, _, h3, h4⟩ := firstFreeX_spec ws w h y (xCandidates w) 0 x0 hx
      subst hp
      refine ⟨h1, by omega, Nat.le_refl y, by omega, ?_, ?_⟩
      · intro t ht1 ht2 u _
        exact absurd (Nat.lt_of_le_of_lt ht1 ht2) (Nat.lt_irrefl y)
      · intro u hu
        exact h4 u (Nat.zero_le u) hu
    | none =>
      simp only [firstFreePos, hx] at hp
      obtain ⟨h1, h2, h3, h4, h5, h6⟩ := ih (y + 1) p hp
      have hrow := firstFreeX_none ws w h y (xCandidates w) 0 hx
      refine ⟨h1, h2, by omega, by omega, ?_, h6⟩
      intro t ht1 ht2 u hu
      rcases Nat.eq_or_lt_of_le ht1 with rfl | hlt
      · exact hrow u (Nat.zero_le u) (by omega)
      · exact h5 t hlt ht2 u hu

theorem firstFreePos_none (ws : List PlacedW) (w h : Nat) :
    ∀ (rows y : Nat), firstFreePos ws w h y rows = none →
      ∀ t, y ≤ t → t < y + rows → ∀ u, u < xCandidates w →
        footprintFree ws u t w h = false := by
  intro rows
  induction rows with
  | zero => intro y _ t ht1 ht2 u _; exact absurd ht2 (by omega)
  | succ r ih =>
    intro y hp t ht1 ht2 u hu
    cases hx : firstFreeX ws w h y 0 (xCandidates w) with
    | some x0 =>
      simp only [firstFreePos, hx] at hp
      exact absurd hp (by simp)
    | none =>
      simp only [firstFreePos, hx] at hp
      rcases Nat.eq_or_lt_of_le ht1 with rfl | hlt
      · exact firstFreeX_none ws w h y (xCandidates w) 0 hx u (Nat.zero_le u)
          (by omega)
      · exact ih (y + 1) hp t hlt (by omega) u hu

theorem footprintFree_cell (ws : List PlacedW) (px py w h dx dy : Nat)
    (hdx : dx < w) (hdy : dy < h) (hfree : footprintFree ws px py w h = true) :
    cellOccupied ws ((px + dx : Nat) : Int) ((py + dy : Nat) : Int) = false := by
  simp only [footprintFree, List.all_eq_true, List.mem_range] at hfree
  simpa using hfree dx hdx dy hdy

theorem findAvailablePosition_of_free (ws : List PlacedW) (w h x y : Nat)
    (hx : x < xCandidates w) (hy : y < 100)
    (hfree : footprintFree ws x y w h = true) :
    ∃ px py : Nat,
      findAvailablePosition ws w h = ((px : Int), (py : Int)) ∧
      px < xCandidates w ∧ py < 100 ∧ footprintFree ws px py w h = true ∧
      (py < y ∨ (py = y ∧ px ≤ x)) := by
  cases hfind : firstFreePos ws w h 0 100 with
  | some p =>
    obtain ⟨h1, h2, _, h4, h5, h6⟩ := firstFreePos_spec ws w h 100 0 p hfind
    refine ⟨p.1, p.2, by simp [findAvailablePosition, hfind], h2, by omega, h1, ?_⟩
    rcases Nat.lt_trichotomy p.2 y with hlt | heq | hgt
    · exact Or.inl hlt
    · refine Or.inr ⟨heq, ?_⟩
      by_contra hgt2
      push_neg at hgt2
      have hb := h6 x hgt2
      rw [heq] at hb
      simp [hb] at hfree
    · have hb := h5 y (Nat.zero_le y) hgt x hx
      simp [hb] at hfree
  | none =>
    have hb := firstFreePos_none ws w h 100 0 hfind y (Nat.zero_le y)
      (by omega) x hx
    simp [hb] at hfree

/-- C6: `_findAvailablePosition` is a row-major first-fit scan — whenever any
in-bounds free origin exists, the returned origin is free, in bounds and
row-major minimal; when no origin within the bounded 100-row search is free,
it falls back to (0,0); consequently a 2×2 widget never lands on a fully
occupied row 0 when any free origin exists, and the second of two width-6
widgets on the 12-column grid is placed at (6,0) with a free footprint. -/
theorem find_available_position_first_fit :
    (∀ (ws : List PlacedW) (w h x y : Nat),
      x < xCandidates w → y < 100 → footprintFree ws x y w h = true →
      ∃ px py : Nat,
        findAvailablePosition ws w h = ((px : Int), (py : Int)) ∧
        px < xCandidates w ∧ py < 100 ∧ footprintFree ws px py w h = true ∧
        (py < y ∨ (py = y ∧ px ≤ x))) ∧
    (∀ (ws : List PlacedW) (w h : Nat),
      (∀ x, x < xCandidates w → ∀ y, y < 100 →
        footprintFree ws x y w h = false) →
      findAvailablePosition ws w h = (0, 0)) ∧
    (∀ ws : List PlacedW,
      (∀ cx : Nat, cx < 12 → cellOccupied ws (cx : Int) 0 = true) →
      (∃ x y : Nat, x < xCandidates 2 ∧ y < 100 ∧
        footprintFree ws x y 2 2 = true) →
      1 ≤ (findAvailablePosition ws 2 2).2) ∧
    (findAvailablePosition [] 6 3 = (0, 0) ∧
     findAvailablePosition [⟨0, 0, 6, 3⟩] 6 3 = (6, 0) ∧
     footprintFree [⟨0, 0, 6, 3⟩] 6 0 6 3 = true) := by
  refine ⟨findAvailablePosition_of_free, ?_, ?_, by decide, by decide, by decide⟩
  · intro ws w h hall
    cases hfind : firstFreePos ws w h 0 100 with
    | some p =>
      obtain ⟨h1, h2, _, h4, _, _⟩ := firstFreePos_spec ws w h 100 0 p hfind
      have hb := hall p.1 h2 p.2 (by omega)
      simp [hb] at h1
    | none => simp [findAvailablePosition, hfind]
  · intro ws hrow hex
    obtain ⟨x, y, hx, hy, hfree⟩ := hex
    obtain ⟨px, py, heq, hpx, _, hfreep, _⟩ :=
      findAvailablePosition_of_free ws 2 2 x y hx hy hfree
    rw [heq]
    show (1 : Int) ≤ (py : Int)
    by_contra hle
    push_neg at hle
    have hpy0 : py = 0 := by omega
    subst hpy0
    have hcell := footprintFree_cell ws px 0 2 2 0 0 (by decide) (by decide) hfreep
    have hlt12 : px + 0 < 12 := by
      have hc : xCandidates 2 = 11 := rfl
      omega
    have hocc := hrow (px + 0) hlt12
    rw [show ((0 + 0 : Nat) : Int) = (0 : Int) by simp] at hcell
    rw [hocc] at hcell
    cases hcell

/-- Witness for C6: a row-0-filling widget forces a 2×2 placement to row ≥ 1;
a grid-filling widget forces the (0,0) fallback; the free origin (0,1) bounds
the first-fit result. -/
theorem find_available_position_first_fit_witness :
    (∃ px py : Nat,
      findAvailablePosition [⟨0, 0, 12, 1⟩] 2 2 = ((px : Int), (py : Int)) ∧
      px < xCandidates 2 ∧ py < 100 ∧
      footprintFree [⟨0, 0, 12, 1⟩] px py 2 2 = true ∧
      (py < 1 ∨ (py = 1 ∧ px ≤ 0))) ∧
    findAvailablePosition [⟨0, 0, 12, 100⟩] 2 2 = (0, 0) ∧
    1 ≤ (findAvailablePosition [⟨0, 0, 12, 1⟩] 2 2).2 :=
  ⟨find_available_position_first_fit.1 [⟨0, 0, 12, 1⟩] 2 2 0 1 (by decide)
      (by decide) (by decide),
   find_available_position_first_fit.2.1 [⟨0, 0, 12, 100⟩] 2 2 (by decide),
   find_available_position_first_fit.2.2.1 [⟨0, 0, 12, 1⟩] (by decide)
     ⟨0, 1, by decide, by decide, by decide⟩⟩

/-! ## LayoutManager reflow theorems -/

theorem pmerge_x_only (st : WPartial) (v : Int) :
    pmerge st { x := some v } = { st with x := some v } := by
  simp [pmerge, Option.orElse]

theorem reflowTransform_exceeds (columns : Int) (st : WPartial) (x w : Int)
    (hx : st.x = some x) (hw : st.width = some w) (hgt : x + w > columns) :
    reflowTransform columns st = { st with x := some (max 0 (columns - w)) } := by
  simp [reflowTransform, hx, hw, hgt]

theorem reflowTransform_fits (columns : Int) (st : WPartial) (x w : Int)
    (hx : st.x = some x) (hw : st.width = some w) (hle : x + w ≤ columns) :
    reflowTransform columns st = st := by
  simp [reflowTransform, hx, hw]
  intro h
  omega

theorem reflowStep_lookup_ne (columns : Int) (acc : SMState)
    (e : String × WPartial) (id : String) (hne : e.1 ≠ id) :
    mlookup (reflowStep columns acc e).layoutState id =
      mlookup acc.layoutState id := by
  have hne2 : id ≠ e.1 := Ne.symm hne
  rcases hx : e.2.x with _ | x
  · simp [reflowStep, hx]
  · rcases hw : e.2.width with _ | w
    · simp [reflowStep, hx, hw]
    · by_cases hgt : x + w > columns
      · simp only [reflowStep, hx, hw]
        rw [if_pos hgt]
        simp [SMState.setWidgetState, mlookup_mset_ne _ _ _ _ hne2]
      · simp [reflowStep, hx, hw, hgt]

theorem reflow_fold_untouched (columns : Int) :
    ∀ (l : List (String × WPartial)) (acc : SMState) (id : String),
      (∀ e ∈ l, e.1 ≠ id) →
      mlookup ((l.foldl (reflowStep columns) acc).layoutState) id =
        mlookup acc.layoutState id := by
  intro l
  induction l with
  | nil => intro acc id _; rfl
  | cons e t ih =>
    intro acc id hne
    rw [List.foldl_cons,
      ih (reflowStep columns acc e) id (fun e' he' => hne e' (List.mem_cons_of_mem e he')),
      reflowStep_lookup_ne columns acc e id (hne e (List.mem_cons_self e t))]

theorem reflowStep_lookup_self (columns : Int) (acc : SMState)
    (e : String × WPartial)
    (hcur : mlookup acc.layoutState e.1 = some e.2) :
    mlookup (reflowStep columns acc e).layoutState e.1 =
      some (reflowTransform columns e.2) := by
  rcases hx : e.2.x with _ | x
  · simp [reflowStep, reflowTransform, hx, hcur]
  · rcases hw : e.2.width with _ | w
    · simp [reflowStep, reflowTransform, hx, hw, hcur]
    · by_cases hgt : x + w > columns
      · simp only [reflowStep, hx, hw]
        rw [if_pos hgt, reflowTransform_exceeds columns e.2 x w hx hw hgt]
        simp [SMState.setWidgetState, pmergeOpt, hcur, mlookup_mset_self,
          pmerge_x_only]
      · rw [reflowTransform_fits columns e.2 x w hx hw (by omega)]
        simp [reflowStep, hx, hw, hgt, hcur]

theorem reflow_fold_mem (columns : Int) :
    ∀ (l : List (String × WPartial)) (acc : SMState),
      (l.map (fun e => e.1)).Nodup →
      (∀ e ∈ l, mlookup acc.layoutState e.1 = some e.2) →
      ∀ e ∈ l, mlookup ((l.foldl (reflowStep columns) acc).layoutState) e.1 =
        some (reflowTransform columns e.2) := by
  intro l
  induction l with
  | nil => intro acc _ _ e he; cases he
  | cons e0 t ih =>
    intro acc hnd hcur e he
    have hne0 : ∀ e' ∈ t, e'.1 ≠ e0.1 := by
      intro e' he' hq
      apply (List.nodup_cons.mp hnd).1
      show e0.1 ∈ List.map (fun e => e.1) t
      rw [← hq]
      exact List.mem_map.mpr ⟨e', he', rfl⟩
    rcases List.mem_cons.mp he with rfl | hmem
    · rw [List.foldl_cons,
        reflow_fold_untouched columns t (reflowStep columns acc e) e.1 hne0,
        reflowStep_lookup_self columns acc e (hcur e (List.mem_cons_self e t))]
    · have hcur2 : ∀ e' ∈ t, mlookup (reflowStep columns acc e0).layoutState e'.1 =
          some e'.2 := by
        intro e' he'
        rw [reflowStep_lookup_ne columns acc e0 e'.1 (Ne.symm (hne0 e' he'))]
        exact hcur e' (List.mem_cons_of_mem e0 he')
      rw [List.foldl_cons]
      exact ih (reflowStep columns acc e0) (List.nodup_cons.mp hnd).2 hcur2 e hmem

/-- C7: on a reflow to a new column count, every snapshot entry whose right
edge (`x + width`) exceeds the count keeps its type, y, width, height, data
and visibility and only has `x` rewritten to `max 0 (columns - width)` —
which is non-negative, never exceeds the old non-negative `x`, and is at most
`columns - width` whenever the width fits at all — while entries whose right
edge fits are left entirely unchanged. -/
theorem reflow_clamps_only_x (s : SMState) (columns : Int)
    (hnd : (s.layoutState.map (fun e => e.1)).Nodup) :
    ∀ e ∈ s.layoutState, ∀ x wd : Int, e.2.x = some x → e.2.width = some wd →
      ((x + wd > columns →
        mlookup (reflowLayout s columns).layoutState e.1 =
          some { e.2 with x := some (max 0 (columns - wd)) } ∧
        0 ≤ max 0 (columns - wd) ∧
        (0 ≤ x → max 0 (columns - wd) ≤ x) ∧
        (wd ≤ columns → max 0 (columns - wd) ≤ columns - wd)) ∧
      (x + wd ≤ columns →
        mlookup (reflowLayout s columns).layoutState e.1 = some e.2)) := by
  intro e he x wd hx hw
  have hcur : ∀ e' ∈ s.layoutState, mlookup s.layoutState e'.1 = some e'.2 := by
    intro e' he'
    rcases e' with ⟨k, v⟩
    exact mlookup_of_mem_nodup s.layoutState hnd k v he'
  have hfold := reflow_fold_mem columns s.layoutState s hnd hcur e he
  constructor
  · intro hgt
    refine ⟨?_, le_max_left 0 _, ?_, ?_⟩
    · rw [reflowLayout, SMState.getAllWidgetStates, hfold,
        reflowTransform_exceeds columns e.2 x wd hx hw hgt]
    · intro h0
      rw [max_le_iff]
      exact ⟨h0, by omega⟩
    · intro hfits
      rw [max_le_iff]
      exact ⟨by omega, le_refl _⟩
  · intro hle
    rw [reflowLayout, SMState.getAllWidgetStates, hfold,
      reflowTransform_fits columns e.2 x wd hx hw hle]

/-- The store for the C7 witness: one widget at x=10 of width 4 under the
12-column layout, about to be reflowed to 6 columns. -/
def smReflow : SMState :=
  SMState.initState.addWidget "a"
    { type := "kpi", x := some 10, y := some 0, width := some 4, height := some 3 }

/-- The persistent entry of widget "a" in `smReflow`. -/
def wReflow : WPartial :=
  { type := some "kpi", x := some 10, y := some 0, width := some 4,
    height := some 3, data := some 0, visible := some true }

/-- Witness for C7: the x=10, width-4 widget reflowed to 6 columns ends at
x = 2 with every other field unchanged. -/
theorem reflow_clamps_only_x_witness :
    ((10 + 4 > (6 : Int) →
      mlookup (reflowLayout smReflow 6).layoutState "a" =
        some { wReflow with x := some (max 0 (6 - 4)) } ∧
      0 ≤ max 0 ((6 : Int) - 4) ∧
      (0 ≤ (10 : Int) → max 0 ((6 : Int) - 4) ≤ 10) ∧
      ((4 : Int) ≤ 6 → max 0 ((6 : Int) - 4) ≤ 6 - 4)) ∧
    (10 + 4 ≤ (6 : Int) →
      mlookup (reflowLayout smReflow 6).layoutState "a" = some wReflow)) :=
  reflow_clamps_only_x smReflow 6 (by decide) ("a", wReflow) (by decide)
    10 4 rfl rfl

/-! ## StateManager operation traces (C10) -/

/-- One call through the `StateManager` mutation API. -/
inductive SMOp where
  | add (id : String) (cfg : AddConfig)
  | remove (id : String)
  | set (id : String) (p : WPartial) (ephemeral silent : Bool)
  | commit (id : String)
  | discard (id : String)
  | batch (updates : List BatchItem)
  | importL (d : Option LayoutData)

/-- Whether an operation addresses the given widget id (directly, in a batch
item, or as a key of an imported payload). -/
def SMOp.touches : SMOp → String → Bool
  | .add i _, id => i == id
  | .remove i, id => i == id
  | .set i _ _ _, id => i == id
  | .commit i, id => i == id
  | .discard i, id => i == id
  | .batch us, id => us.any (fun u => u.widgetId == id)
  | .importL none, _ => false
  | .importL (some ld), id => ld.widgets.any (fun e => e.1 == id)

/-- Apply one API call to the store. -/
def SMState.applyOp (s : SMState) : SMOp → SMState
  | .add id cfg => s.addWidget id cfg
  | .remove id => s.removeWidget id
  | .set id p e si => s.setWidgetState id p e si
  | .commit id => s.commitEphemeralState id
  | .discard id => s.discardEphemeralState id
  | .batch us => s.batchUpdate us
  | .importL d => (s.importLayout d).2

/-- A freshly constructed store driven through a sequence of API calls. -/
def runOps (ops : List SMOp) : SMState :=
  ops.foldl SMState.applyOp SMState.initState

theorem batch_fold_preserves_absent (id : String) :
    ∀ (us : List BatchItem) (acc : SMState),
      us.any (fun u => u.widgetId == id) = false →
      mlookup acc.layoutState id = none →
      mlookup acc.ephemeralState id = none →
      mlookup ((us.foldl (fun acc u =>
        if u.ephemeral then
          { acc with ephemeralState := mset acc.ephemeralState u.widgetId u.state }
        else
          { acc with
              layoutState :=
                mset acc.layoutState u.widgetId
                  (pmergeOpt (mlookup acc.layoutState u.widgetId) u.state)
              dirtyWidgets := saddElem acc.dirtyWidgets u.widgetId }) acc).layoutState)
        id = none ∧
      mlookup ((us.foldl (fun acc u =>
        if u.ephemeral then
          { acc with ephemeralState := mset acc.ephemeralState u.widgetId u.state }
        else
          { acc with
              layoutState :=
                mset acc.layoutState u.widgetId
                  (pmergeOpt (mlookup acc.layoutState u.widgetId) u.state)
              dirtyWidgets := saddElem acc.dirtyWidgets u.widgetId }) acc).ephemeralState)
        id = none := by
  intro us
  induction us with
  | nil => intro acc _ hl he; exact ⟨hl, he⟩
  | cons u t ih =>
    intro acc hany hl he
    rw [List.any_cons, Bool.or_eq_false_iff] at hany
    have hne : id ≠ u.widgetId := by
      intro hq
      rw [hq] at hany
      simp at hany
    rw [List.foldl_cons]
    by_cases hu : u.ephemeral = true
    · rw [if_pos hu] at *
      exact ih _ hany.2 hl (by rw [mlookup_mset_ne _ _ _ _ hne] at *; exact he)
    · rw [if_neg hu] at *
      exact ih _ hany.2 (by rw [mlookup_mset_ne _ _ _ _ hne] at *; exact hl) he

theorem import_fold_preserves_absent (id : String) :
    ∀ (l : List (String × CompactW)) (acc : List (String × WPartial)),
      l.any (fun e => e.1 == id) = false →
      mlookup acc id = none →
      mlookup (l.foldl (fun m e => mset m e.1 (expandCompact e.2)) acc) id =
        none := by
  intro l
  induction l with
  | nil => intro acc _ h; exact h
  | cons e t ih =>
    intro acc hany h
    rw [List.any_cons, Bool.or_eq_false_iff] at hany
    have hne : id ≠ e.1 := by
      intro hq
      rw [hq] at hany
      simp at hany
    rw [List.foldl_cons]
    exact ih _ hany.2 (by rw [mlookup_mset_ne _ _ _ _ hne]; exact h)

theorem applyOp_preserves_absent (s : SMState) (op : SMOp) (id : String)
    (ht : op.touches id = false)
    (hl : mlookup s.layoutState id = none)
    (he : mlookup s.ephemeralState id = none) :
    mlookup (s.applyOp op).layoutState id = none ∧
    mlookup (s.applyOp op).ephemeralState id = none := by
  cases op with
  | add i cfg =>
    have hne : id ≠ i := by
      intro hq; rw [hq] at ht; simp [SMOp.touches] at ht
    exact ⟨by simp [SMState.applyOp, SMState.addWidget,
        mlookup_mset_ne _ _ _ _ hne, hl], by simp [SMState.applyOp,
        SMState.addWidget, he]⟩
  | remove i =>
    have hne : id ≠ i := by
      intro hq; rw [hq] at ht; simp [SMOp.touches] at ht
    exact ⟨by simp [SMState.applyOp, SMState.removeWidget,
        mlookup_merase_ne _ _ _ hne, hl], by simp [SMState.applyOp,
        SMState.removeWidget, mlookup_merase_ne _ _ _ hne, he]⟩
  | set i p eph si =>
    have hne : id ≠ i := by
      intro hq; rw [hq] at ht; simp [SMOp.touches] at ht
    cases eph <;> cases si <;>
      exact ⟨by simp [SMState.applyOp, SMState.setWidgetState,
          mlookup_mset_ne _ _ _ _ hne, hl], by simp [SMState.applyOp,
          SMState.setWidgetState, mlookup_mset_ne _ _ _ _ hne, he]⟩
  | commit i =>
    have hne : id ≠ i := by
      intro hq; rw [hq] at ht; simp [SMOp.touches] at ht
    cases hc : mlookup s.ephemeralState i with
    | none => exact ⟨by simp [SMState.applyOp, SMState.commitEphemeralState, hc, hl],
        by simp [SMState.applyOp, SMState.commitEphemeralState, hc, he]⟩
    | some eph =>
      exact ⟨by simp [SMState.applyOp, SMState.commitEphemeralState, hc,
          SMState.setWidgetState, mlookup_mset_ne _ _ _ _ hne, hl],
        by simp [SMState.applyOp, SMState.commitEphemeralState, hc,
          SMState.setWidgetState, mlookup_merase_ne _ _ _ hne, he]⟩
  | discard i =>
    have hne : id ≠ i := by
      intro hq; rw [hq] at ht; simp [SMOp.touches] at ht
    exact ⟨by simp [SMState.applyOp, SMState.discardEphemeralState, hl],
      by simp [SMState.applyOp, SMState.discardEphemeralState,
        mlookup_merase_ne _ _ _ hne, he]⟩
  | batch us =>
    have hany : us.any (fun u => u.widgetId == id) = false := by
      simpa [SMOp.touches] using ht
    have hres := batch_fold_preserves_absent id us s hany hl he
    exact ⟨by simpa [SMState.applyOp, SMState.batchUpdate] using hres.1,
      by simpa [SMState.applyOp, SMState.batchUpdate] using hres.2⟩
  | importL d =>
    cases d with
    | none => exact ⟨hl, he⟩
    | some ld =>
      have hany : ld.widgets.any (fun e => e.1 == id) = false := by
        simpa [SMOp.touches] using ht
      by_cases hv : ld.v ≠ configStorageVersion
      · exact ⟨by simp [SMState.applyOp, SMState.importLayout, hv, hl],
          by simp [SMState.applyOp, SMState.importLayout, hv, he]⟩
      · refine ⟨?_, by simp [SMState.applyOp, SMState.importLayout, hv, he]⟩
        simp only [SMState.applyOp, SMState.importLayout, hv, if_false]
        exact import_fold_preserves_absent id ld.widgets [] hany rfl

theorem runFrom_preserves_absent (id : String) :
    ∀ (ops : List SMOp) (s : SMState),
      (∀ op ∈ ops, op.touches id = false) →
      mlookup s.layoutState id = none →
      mlookup s.ephemeralState id = none →
      mlookup ((ops.foldl SMState.applyOp s).layoutState) id = none ∧
      mlookup ((ops.foldl SMState.applyOp s).ephemeralState) id = none := by
  intro ops
  induction ops with
  | nil => intro s _ hl he; exact ⟨hl, he⟩
  | cons op t ih =>
    intro s hall hl he
    obtain ⟨h1, h2⟩ := applyOp_preserves_absent s op id
      (hall op (List.mem_cons_self op t)) hl he
    exact ih (s.applyOp op) (fun o ho => hall o (List.mem_cons_of_mem op ho)) h1 h2

/-- C10: after any API trace that never addresses an id — and likewise after
any trace whose last operation addressing the id removed it —
`getWidgetState` returns `null` for the id and `getCurrentPosition` returns
`null` (no ephemeral and no persistent entry); both lookups are total, so no
exception is possible. -/
theorem unknown_id_lookup_returns_null :
    (∀ (ops : List SMOp) (id : String),
      (∀ op ∈ ops, op.touches id = false) →
      (runOps ops).getWidgetState id = none ∧
      (runOps ops).getCurrentPosition id = none) ∧
    (∀ (pre post : List SMOp) (id : String),
      (∀ op ∈ post, op.touches id = false) →
      (runOps (pre ++ SMOp.remove id :: post)).getWidgetState id = none ∧
      (runOps (pre ++ SMOp.remove id :: post)).getCurrentPosition id = none) := by
  have hpos : ∀ (s : SMState) (id : String),
      mlookup s.layoutState id = none → mlookup s.ephemeralState id = none →
      s.getWidgetState id = none ∧ s.getCurrentPosition id = none := by
    intro s id hl he
    exact ⟨hl, by simp [SMState.getCurrentPosition, hl, he]⟩
  constructor
  · intro ops id hall
    obtain ⟨h1, h2⟩ := runFrom_preserves_absent id ops SMState.initState hall rfl rfl
    exact hpos _ id h1 h2
  · intro pre post id hall
    have hsplit : runOps (pre ++ SMOp.remove id :: post) =
        post.foldl SMState.applyOp
          ((pre.foldl SMState.applyOp SMState.initState).applyOp
            (SMOp.remove id)) := by
      rw [runOps, List.foldl_append, List.foldl_cons]
    have hl : mlookup ((pre.foldl SMState.applyOp SMState.initState).applyOp
        (SMOp.remove id)).layoutState id = none := by
      simp [SMState.applyOp, SMState.removeWidget, mlookup_merase_self]
    have he : mlookup ((pre.foldl SMState.applyOp SMState.initState).applyOp
        (SMOp.remove id)).ephemeralState id = none := by
      simp [SMState.applyOp, SMState.removeWidget, mlookup_merase_self]
    obtain ⟨h1, h2⟩ := runFrom_preserves_absent id post _ hall hl he
    rw [hsplit]
    exact hpos _ id h1 h2

/-- Witness for C10: a trace adding and dragging widget "a" never creates an
entry for "z", and "z" removed right after being added reads as `null`. -/
theorem unknown_id_lookup_returns_null_witness :
    ((runOps [SMOp.add "a" { type := "kpi" },
        SMOp.set "a" { x := some 1 } true true]).getWidgetState "z" = none ∧
     (runOps [SMOp.add "a" { type := "kpi" },
        SMOp.set "a" { x := some 1 } true true]).getCurrentPosition "z" = none) ∧
    ((runOps ([SMOp.add "z" { type := "kpi" }] ++ SMOp.remove "z" ::
        [SMOp.add "a" { type := "kpi" }])).getWidgetState "z" = none ∧
     (runOps ([SMOp.add "z" { type := "kpi" }] ++ SMOp.remove "z" ::
        [SMOp.add "a" { type := "kpi" }])).getCurrentPosition "z" = none) :=
  ⟨unknown_id_lookup_returns_null.1
      [SMOp.add "a" { type := "kpi" }, SMOp.set "a" { x := some 1 } true true]
      "z" (by decide),
   unknown_id_lookup_returns_null.2 [SMOp.add "z" { type := "kpi" }]
      [SMOp.add "a" { type := "kpi" }] "z" (by decide)⟩

end Floose
